import Mathlib

/-!
Verification development for the RotorHazard hardware interface layer
(`src/interface/RHInterface.py`).

The Python source is shallowly embedded: pure helpers become Lean
functions, the stateful poll cycle becomes explicit state passing over a
`Node` structure, bus I/O becomes explicit inputs (a stream of bus attempt
outcomes, or the decoded block handed to the poll loop), and host
monotonic timestamps become exact rationals (the Python code uses floats;
none of the properties below depends on rounding).  Machine integers in
the frames are plain `Nat`s, as in Python.  Python `IOError` handling and
the `NameError` that the source can raise for API levels 13..17 (see
`decodeFrame`) are modelled with `Except Unit`.
-/

namespace RH

/-! ## Constants (RHInterface.py lines 30-42) -/

def I2C_RETRY_COUNT : Nat := 5
def MIN_RSSI_VALUE : Nat := 1
def MAX_RSSI_VALUE : Nat := 999
def CAP_ENTER_EXIT_AT_MILLIS : Nat := 3000
def ENTER_AT_PEAK_MARGIN : Int := 5
def LAP_SOURCE_REALTIME : Nat := 0
def LAP_SOURCE_MANUAL : Nat := 1

/-! ## Byte codec (lines 44-96)

`data[i]` on the Python byte lists is modelled with `List.getD _ i 0`; the
poll loop only ever indexes into blocks of the size it requested. -/

def unpack_8 (data : List Nat) : Nat := data.getD 0 0

def unpack_16 (data : List Nat) : Nat :=
  ((data.getD 0 0) <<< 8) ||| data.getD 1 0

def unpack_32 (data : List Nat) : Nat :=
  ((((((data.getD 0 0) <<< 8) ||| data.getD 1 0) <<< 8) ||| data.getD 2 0) <<< 8)
    ||| data.getD 3 0

def unpack_rssi (api_level : Nat) (data : List Nat) : Nat :=
  if api_level ≥ 18 then unpack_8 data else unpack_16 data

/-- Line 79-84.  `sum(data[:-1]) & 0xFF == data[-1]`.  An empty block
(never produced by the bus, which always returns `size + 1 ≥ 1` bytes) is
treated as invalid. -/
def validate_checksum (data : List Nat) : Bool :=
  match data.getLast? with
  | none => false
  | some last => data.dropLast.sum % 256 == last

/-! ## Bus transactor: `read_block` (lines 415-448)

One loop iteration per bus attempt; an attempt either raises `IOError`
or yields the raw `size + 1`-byte block.  The address, register and
requested size only flow into the bus call and the log lines, so the bus
is abstracted as the stream of attempt outcomes.  All exceptions are
caught inside the loop, so the model is a total function. -/

inductive BusRead where
  | ioErr
  | okRaw (raw : List Nat)

/-- The `while success is False and retry_count < I2C_RETRY_COUNT` loop:
`fuel = I2C_RETRY_COUNT - retry_count`, `i` the attempt number, `data` the
loop variable (note the source never resets it after a checksum failure). -/
def read_block_go (attempts : Nat → BusRead) : Nat → Nat → Option (List Nat) →
    Option (List Nat)
  | 0, _, data => data
  | fuel + 1, i, data =>
    match attempts i with
    | .ioErr => read_block_go attempts fuel (i + 1) data
    | .okRaw raw =>
      if validate_checksum raw then some raw.dropLast
      else read_block_go attempts fuel (i + 1) (some raw)

def read_block (attempts : Nat → BusRead) : Option (List Nat) :=
  read_block_go attempts I2C_RETRY_COUNT 0 none

/-! ## Set-and-validate (lines 501-552)

Each function writes `in_value`, reads back (`echoes k` is the value the
`get_value_*` read-back returns on the attempt with `retry_count = k`;
`none` is a failed read), and compares; the loop retries up to
`I2C_RETRY_COUNT`.  The pair returned is `(out_value, retry_count)`
where `out_value` is the Python return value after the final
`if out_value == None: out_value = in_value` fix-up; the retry counter is
the loop variable, kept observable. -/

def sav_loop (echoes : Nat → Option Int) (accept : Option Int → Bool) :
    Nat → Nat → Option Int → Option Int × Nat
  | 0, retry, out => (out, retry)
  | fuel + 1, retry, _ =>
    let out := echoes retry
    if accept out then (out, retry)
    else sav_loop echoes accept fuel (retry + 1) out

def set_and_validate_value_8 (echoes : Nat → Option Int) (in_value : Int) :
    Int × Nat :=
  let r := sav_loop echoes (fun out => out == some in_value) I2C_RETRY_COUNT 0 none
  (r.1.getD in_value, r.2)

/-- Line 526: `out_value == in_value or out_value == in_value + (1 << 16)`. -/
def set_and_validate_value_16 (echoes : Nat → Option Int) (in_value : Int) :
    Int × Nat :=
  let r := sav_loop echoes
    (fun out => out == some in_value || out == some (in_value + 2 ^ 16))
    I2C_RETRY_COUNT 0 none
  (r.1.getD in_value, r.2)

def set_and_validate_value_32 (echoes : Nat → Option Int) (in_value : Int) :
    Int × Nat :=
  let r := sav_loop echoes
    (fun out => out == some in_value || out == some (in_value + 2 ^ 32))
    I2C_RETRY_COUNT 0 none
  (r.1.getD in_value, r.2)

/-- Lines 602-606.  The Python function selects the width by `api_level`
and calls the corresponding setter, but has no `return` statement in
either branch, so it always returns Python `None` (modelled `none`);
the sub-call still runs (its bus traffic is outside the model). -/
def set_and_validate_value_rssi (api_level : Nat) (echoes : Nat → Option Int)
    (in_value : Int) : Option Int :=
  if api_level ≥ 18 then
    let _ := set_and_validate_value_8 echoes in_value
    none
  else
    let _ := set_and_validate_value_16 echoes in_value
    none

/-- Lines 634-643.  `transmit_enter_at_level` is exactly
`set_and_validate_value_rssi`; `set_enter_at_level` assigns its result to
`node.enter_at_level` when `api_valid_flag` is set.  The function returns
the value the field holds afterwards (`old` is its previous value). -/
def set_enter_at_level (api_valid_flag : Bool) (api_level : Nat)
    (echoes : Nat → Option Int) (level : Int) (old : Option Int) : Option Int :=
  if api_valid_flag then set_and_validate_value_rssi api_level echoes level
  else old

/-- Lines 645-654, the exit-at analogue. -/
def set_exit_at_level (api_valid_flag : Bool) (api_level : Nat)
    (echoes : Nat → Option Int) (level : Int) (old : Option Int) : Option Int :=
  if api_valid_flag then set_and_validate_value_rssi api_level echoes level
  else old

/-! ## The Node state (Node.py is not part of the staged sources; the
fields are the ones `update` and the capture/configuration paths read or
write).  `enter_at_level` / `exit_at_level` are `Option Int` because the
Python field can hold `None` (see `set_and_validate_value_rssi`).
Times are host-clock rationals: `cap_*_millis` in milliseconds. -/

structure Node where
  api_level : Nat
  api_valid_flag : Bool
  frequency : Nat
  current_rssi : Nat
  node_peak_rssi : Nat
  node_nadir_rssi : Nat
  pass_peak_rssi : Nat
  loop_time : Nat
  crossing_flag : Bool
  last_lap_id : Int
  lap_ms_since_start : Int
  enter_at_level : Option Int
  exit_at_level : Option Int
  cap_enter_at_flag : Bool
  cap_enter_at_total : Nat
  cap_enter_at_count : Nat
  cap_enter_at_millis : ℚ
  cap_exit_at_flag : Bool
  cap_exit_at_total : Nat
  cap_exit_at_count : Nat
  cap_exit_at_millis : ℚ
  history_values : List Nat
  history_times : List ℚ
deriving DecidableEq

/-- A freshly constructed `Node()` (its fields before discovery; also the
out-of-range default for positional list lookups, never reached on the
indices the scan produces). -/
def blankNode : Node :=
  { api_level := 0, api_valid_flag := false, frequency := 0, current_rssi := 0,
    node_peak_rssi := 0, node_nadir_rssi := 0, pass_peak_rssi := 0, loop_time := 0,
    crossing_flag := false, last_lap_id := -1, lap_ms_since_start := 0,
    enter_at_level := none, exit_at_level := none,
    cap_enter_at_flag := false, cap_enter_at_total := 0, cap_enter_at_count := 0,
    cap_enter_at_millis := 0, cap_exit_at_flag := false, cap_exit_at_total := 0,
    cap_exit_at_count := 0, cap_exit_at_millis := 0,
    history_values := [], history_times := [] }

instance : Inhabited Node := ⟨blankNode⟩

/-- One poll cycle's bus interaction for one node: `read` maps the size
`update` requests to the block `read_block` hands back (`none` = retry
exhaustion), `tReq`/`tRes` are `self.i2c_request` / `self.i2c_response`
(host monotonic seconds), `nowMs` the value `self.milliseconds()` returns
during the capture checks. -/
structure PollInput where
  read : Nat → Option (List Nat)
  tReq : ℚ
  tRes : ℚ
  nowMs : ℚ

/-- Lines 205-223: the `READ_LAP_STATS` size `update` requests, selected
by `api_valid_flag or api_level >= 5` and then by `api_level`. -/
def lapStatsReadSize (api_valid_flag : Bool) (api_level : Nat) : Nat :=
  if api_valid_flag || api_level ≥ 5 then
    if api_level ≥ 18 then 19
    else if api_level ≥ 17 then 28
    else if api_level ≥ 13 then 20
    else 18
  else 17

/-- Line 230 / 243: the frame offset of the RSSI sample. -/
def offsetRssi (api_level : Nat) : Nat := if api_level ≥ 18 then 3 else 5

def frameRssi (api_level : Nat) (data : List Nat) : Nat :=
  unpack_rssi api_level (data.drop (offsetRssi api_level))

/-- Line 256: `rssi_val >= MIN_RSSI_VALUE and rssi_val <= MAX_RSSI_VALUE`. -/
def rssiInRange (v : Nat) : Prop := MIN_RSSI_VALUE ≤ v ∧ v ≤ MAX_RSSI_VALUE

instance (v : Nat) : Decidable (rssiInRange v) := by
  unfold rssiInRange; infer_instance

/-! ## Frame decode (lines 229-288)

`decodeFrame` covers the api-branch of the accepted-RSSI block: the lap
time / `lap_ms_since_start` handling, the peak/pass-peak/loop-time
updates, the crossing-flag transition and the node-nadir read.  Its input
node already has `current_rssi` assigned (line 257).

`nadirBound` tracks whether the Python local `offset_nodeNadirRssi` is
bound in the enclosing `update()` call.  The variable is assigned only in
the `api_level >= 18` offsets branch (line 236, always with value 10);
the `else` offsets branch misspells it `offset_nodeNadirPassi` (line
249), so for a node with `13 <= api_level < 18` line 283 reads the
variable left over from an earlier `api_level >= 18` node in the same
cycle — or raises `NameError` (modelled `.error ()`) when there is none. -/

/-- Lines 260-268: the api-split on the lap value.  At `api_level ≥ 18`
`lap_time_ms = lap_differential + server_oneway` with
`server_oneway = (i2c_response - i2c_request) / 2` in seconds; below 18
the u32 ms value is clamped to 0 above 9999999 (it is unsigned, so the
`ms_val < 0` half of the test never fires), stored in
`lap_ms_since_start`, and `lap_time_ms` keeps its line-227 value 0. -/
def lapFields (n0 : Node) (data : List Nat) (tReq tRes : ℚ) : Node × ℚ :=
  if n0.api_level ≥ 18 then
    (n0, ((unpack_16 (data.drop 1) : ℚ) + (tRes - tReq) / 2))
  else
    let ms_val := unpack_32 (data.drop 1)
    let ms_val := if 9999999 < ms_val then 0 else ms_val
    ({n0 with lap_ms_since_start := (ms_val : Int)}, (0 : ℚ))

/-- Lines 272-279: latch the crossing flag; the second component is
whether the node joins `cross_list`. -/
def crossingStep (n : Node) (cross_flag : Bool) : Node × Bool :=
  if cross_flag = n.crossing_flag then (n, false)
  else ({n with crossing_flag := cross_flag}, true)

def decodeFrame (nadirBound : Bool) (n0 : Node) (data : List Nat)
    (tReq tRes : ℚ) : Except Unit (Node × Bool × ℚ) :=
  if n0.api_valid_flag then
    let api := n0.api_level
    let offset_nodePeakRssi := if api ≥ 18 then 4 else 7
    let offset_passPeakRssi := if api ≥ 18 then 5 else 9
    let offset_loopTime := if api ≥ 18 then 6 else 11
    let offset_crossing := if api ≥ 18 then 8 else 15
    let step1 := lapFields n0 data tReq tRes
    let n2 := {step1.1 with
      node_peak_rssi := unpack_rssi api (data.drop offset_nodePeakRssi),
      pass_peak_rssi := unpack_rssi api (data.drop offset_passPeakRssi),
      loop_time := unpack_16 (data.drop offset_loopTime)}
    let step2 := crossingStep n2 (data.getD offset_crossing 0 != 0)
    -- line 280 unpacks the pass-nadir RSSI and discards it
    if 13 ≤ api then
      if nadirBound then
        .ok ({step2.1 with node_nadir_rssi := unpack_rssi api (data.drop 10)},
             step2.2, step1.2)
      else .error ()
    else .ok (step2.1, step2.2, step1.2)
  else
    -- lines 285-288, the legacy path: no crossing handling
    .ok ({n0 with
            pass_peak_rssi := unpack_rssi n0.api_level (data.drop 11),
            loop_time := unpack_32 (data.drop 13)},
         false, (unpack_32 (data.drop 1) : ℚ))

/-- Lines 295-306.  `cap_enter_at_total / cap_enter_at_count` is Python 2
integer division (both are ints), so `int(round(...))` is the floor of
the mean; the peak clamp then applies.  The transmit and callback on
completion touch no node state. -/
def captureEnterStep (n : Node) (nowMs : ℚ) : Node :=
  if n.cap_enter_at_flag then
    let total := n.cap_enter_at_total + n.current_rssi
    let count := n.cap_enter_at_count + 1
    let n1 := {n with cap_enter_at_total := total, cap_enter_at_count := count}
    if nowMs ≥ n1.cap_enter_at_millis then
      let lvl : Int := (total / count : Nat)
      let lvl :=
        if 0 < n1.node_peak_rssi ∧
            (n1.node_peak_rssi : Int) - lvl < ENTER_AT_PEAK_MARGIN then
          (n1.node_peak_rssi : Int) - ENTER_AT_PEAK_MARGIN
        else lvl
      {n1 with enter_at_level := some lvl, cap_enter_at_flag := false}
    else n1
  else n

/-- Lines 309-317, the exit-at analogue (no peak clamp). -/
def captureExitStep (n : Node) (nowMs : ℚ) : Node :=
  if n.cap_exit_at_flag then
    let total := n.cap_exit_at_total + n.current_rssi
    let count := n.cap_exit_at_count + 1
    let n1 := {n with cap_exit_at_total := total, cap_exit_at_count := count}
    if nowMs ≥ n1.cap_exit_at_millis then
      {n1 with exit_at_level := some ((total / count : Nat) : Int),
               cap_exit_at_flag := false}
    else n1
  else n

/-- The one- or two-sample peak contribution (lines 332-339 et al.).
`peakFirstTime / 1000` is Python 2 integer division (both ints). -/
def peakSamples (peakRssi peakFirstTime peakLastTime : Nat) (readtime : ℚ) :
    List (Nat × ℚ) :=
  if peakFirstTime < peakLastTime then
    [(peakRssi, readtime - ((peakFirstTime / 1000 : Nat) : ℚ)),
     (peakRssi, readtime - ((peakLastTime / 1000 : Nat) : ℚ))]
  else
    [(peakRssi, readtime - ((peakLastTime / 1000 : Nat) : ℚ))]

/-- Lines 320-373: the api≥18 history pairs, in append order. -/
def historySamples (api_level : Nat) (data : List Nat) (readtime : ℚ) :
    List (Nat × ℚ) :=
  let peakRssi := unpack_rssi api_level (data.drop 11)
  let peakFirstTime := unpack_16 (data.drop 12)
  let peakLastTime := unpack_16 (data.drop 14)
  let nadirRssi := unpack_rssi api_level (data.drop 16)
  let nadirTime := unpack_16 (data.drop 17)
  let nadirSample := (nadirRssi, readtime - ((nadirTime / 1000 : Nat) : ℚ))
  if 0 < peakRssi then
    if 0 < nadirRssi then
      if peakLastTime < nadirTime then
        peakSamples peakRssi peakFirstTime peakLastTime readtime ++ [nadirSample]
      else
        nadirSample :: peakSamples peakRssi peakFirstTime peakLastTime readtime
    else
      peakSamples peakRssi peakFirstTime peakLastTime readtime
  else if 0 < nadirRssi then [nadirSample]
  else []

/-- Lines 319-373 guarded by `api_level >= 18`; `readtime` is
`i2c_response - server_oneway` (line 210). -/
def historyStep (n : Node) (data : List Nat) (tReq tRes : ℚ) : Node :=
  if n.api_level ≥ 18 then
    let readtime := tRes - (tRes - tReq) / 2
    let samples := historySamples n.api_level data readtime
    {n with history_values := n.history_values ++ samples.map Prod.fst,
            history_times := n.history_times ++ samples.map Prod.snd}
  else n

/-- The per-node body of `update` (lines 203-377).  Returns the updated
node, whether the node was appended to `cross_list`, the `upd_list` entry
`(new_lap_id, lap_time_ms)` when line 291 detects a new lap, and the
updated `offset_nodeNadirRssi` binding state.  The crossing and
pass-record callbacks are modelled as always subscribed. -/
def updateNode (nadirBound : Bool) (node : Node) (inp : PollInput) :
    Except Unit (Node × Bool × Option (Nat × ℚ) × Bool) :=
  if node.frequency = 0 then .ok (node, false, none, nadirBound)
  else
    match inp.read (lapStatsReadSize node.api_valid_flag node.api_level) with
    | none => .ok (node, false, none, nadirBound)
    | some data =>
      let bound' := if node.api_level ≥ 18 then true else nadirBound
      let rssi_val := frameRssi node.api_level data
      if rssiInRange rssi_val then
        match decodeFrame bound' {node with current_rssi := rssi_val} data
            inp.tReq inp.tRes with
        | .error e => .error e
        | .ok (n1, crossed, lap_time_ms) =>
          let lap_id := data.getD 0 0
          let lap? :=
            if (lap_id : Int) ≠ node.last_lap_id then some (lap_id, lap_time_ms)
            else none
          let n2 := captureEnterStep n1 inp.nowMs
          let n3 := captureExitStep n2 inp.nowMs
          let n4 := historyStep n3 data inp.tReq inp.tRes
          .ok (n4, crossed, lap?, bound')
      else
        -- line 377: out-of-range RSSI is logged and the node skipped
        .ok (node, false, none, bound')

/-- The `for node in self.nodes` scan (lines 203-377): nodes are
addressed by list position `i`, `inputs i` is node `i`'s bus interaction,
and the produced `cross_list` / `upd_list` keep insertion order. -/
def updateScan (inputs : Nat → PollInput) : Bool → Nat → List Node →
    Except Unit (List Node × List Nat × List (Nat × Nat × ℚ))
  | _, _, [] => .ok ([], [], [])
  | bound, i, n :: ns =>
    match updateNode bound n (inputs i) with
    | .error e => .error e
    | .ok (n', crossed, lap?, bound') =>
      match updateScan inputs bound' (i + 1) ns with
      | .error e => .error e
      | .ok (ns', crosses, upds) =>
        .ok (n' :: ns',
             (if crossed then i :: crosses else crosses),
             (match lap? with
              | some (lapId, t) => (i, lapId, t) :: upds
              | none => upds))

/-- The callbacks `update` fires, in order.  A lap event records the
node's list position, the `lap_time_ms` argument, the node's
`lap_ms_since_start` at emission time (the sort key of line 394, readable
by the subscriber), and the lap source. -/
inductive Event where
  | cross (idx : Nat)
  | lap (idx : Nat) (lapTime : ℚ) (msStart : Int) (source : Nat)
deriving DecidableEq

def Event.msKey : Event → Int
  | .cross _ => 0
  | .lap _ _ ms _ => ms

/-- Line 394's sort key `i[0].lap_ms_since_start`. -/
def lapKey (nodes : List Node) (item : Nat × Nat × ℚ) : Int :=
  (nodes.getD item.1 blankNode).lap_ms_since_start

/-- Lines 386-399, one `upd_list` item: suppress when
`node.last_lap_id == -1`, else fire `pass_record_callback` with
`LAP_SOURCE_REALTIME`; then assign `last_lap_id := new_lap_id`. -/
def emitLaps : List Node → List (Nat × Nat × ℚ) → List Node × List Event
  | nodes, [] => (nodes, [])
  | nodes, (i, lapId, t) :: rest =>
    let nd := nodes.getD i blankNode
    let evs :=
      if nd.last_lap_id ≠ -1 then
        [Event.lap i t nd.lap_ms_since_start LAP_SOURCE_REALTIME]
      else []
    let r := emitLaps (nodes.set i {nd with last_lap_id := (lapId : Int)}) rest
    (r.1, evs ++ r.2)

/-- Lines 385-399.  A single item is processed directly; several are
first sorted ascending by `lap_ms_since_start`.  Python's `list.sort` is
stable, and a stable sort under a total preorder is unique, so the
structurally recursive `List.insertionSort` (also stable) computes the
same list. -/
def updateDispatch (nodes : List Node) (upds : List (Nat × Nat × ℚ)) :
    List Node × List Event :=
  if upds.length = 1 then emitLaps nodes upds
  else if 1 < upds.length then
    emitLaps nodes
      (upds.insertionSort (fun a b => lapKey nodes a ≤ lapKey nodes b))
  else (nodes, [])

/-- `update` (lines 200-399): the scan over all nodes, then the crossing
callbacks (lines 380-382, insertion order), then the lap dispatch. -/
def update (nodes : List Node) (inputs : Nat → PollInput) :
    Except Unit (List Node × List Event) :=
  match updateScan inputs false 0 nodes with
  | .error e => .error e
  | .ok (ns, crosses, upds) =>
    let d := updateDispatch ns upds
    .ok (d.1, crosses.map Event.cross ++ d.2)

/-- Lines 706-709: `intf_simulate_lap` assigns `lap_ms_since_start` and
fires a `LAP_SOURCE_MANUAL` lap with time 100. -/
def intf_simulate_lap (node_index : Nat) (node : Node) (ms_val : Int) :
    Node × Event :=
  ({node with lap_ms_since_start := ms_val},
   Event.lap node_index 100 ms_val LAP_SOURCE_MANUAL)

/-! ## Spec-side definitions (for comparison against the code) -/

/-- Modelled from the spec: Python's `round` (half away from zero) — the
spec's `enter_at_level := round(cap_enter_at_total / cap_enter_at_count)`
reads the division as exact. -/
def spec_round (q : ℚ) : Int :=
  if 0 ≤ q then ⌊q + 1 / 2⌋ else ⌈q - 1 / 2⌉

/-- Modelled from the spec: the capture level the spec's formula yields
before the peak clamp. -/
def spec_enter_level (total count : Nat) : Int :=
  spec_round ((total : ℚ) / (count : ℚ))

/-! ## Concrete scenarios -/

/-- An api-level-18 frame (19 bytes): `lap_id` at 0, `lap_differential`
at 1..2, RSSI at 3, node-peak at 4, the rest zero (no crossing, no
history peak/nadir). -/
def frame18 (lapId diff rssi peak : Nat) : List Nat :=
  [lapId, diff / 256, diff % 256, rssi, peak, 0, 0, 0, 0, 0, 0, 0, 0, 0, 0, 0, 0, 0, 0]

def input18 (frame : List Nat) (tReq tRes nowMs : ℚ) : PollInput :=
  { read := fun s => if s = 19 then some frame else none,
    tReq := tReq, tRes := tRes, nowMs := nowMs }

def node18 : Node :=
  { blankNode with api_level := 18, api_valid_flag := true, frequency := 5800 }

/-- C1 scenario: two polls, `lap_id` 0 then 1, `lap_differential = 250`,
round trip 20 ms (`tReq = 0`, `tRes = 1/50` s). -/
def c1Input1 : PollInput := input18 (frame18 0 250 50 60) 0 (1 / 50) 0

def c1Input2 : PollInput := input18 (frame18 1 250 50 60) 0 (1 / 50) 0

/-- The node list after the first C1 poll. -/
def c1Mid : List Node :=
  ((update [node18] (fun _ => c1Input1)).toOption.getD ([], [])).1

/-- C6 scenario A: enter-at capture completing with prior accumulators
`total = 1, count = 1` (one earlier sample of 1) and a frame RSSI of 2;
the frame reports `node_peak_rssi = 0`, so the clamp does not fire. -/
def c6NodeA : Node :=
  { node18 with
    cap_enter_at_flag := true, cap_enter_at_total := 1,
    cap_enter_at_count := 1, cap_enter_at_millis := 0 }

def c6InputA : PollInput := input18 (frame18 0 0 2 0) 0 0 0

/-- C6 scenario B: as A but the frame reports `node_peak_rssi = 3`, so
the peak clamp fires and drags the level below both samples. -/
def c6InputB : PollInput := input18 (frame18 0 0 2 3) 0 0 0

/-- C6 witness node: capture in progress with one accumulated sample of
1, the current poll's accepted RSSI already stored (2), deadline passed. -/
def c6WitNode : Node := { c6NodeA with current_rssi := 2 }

/-- C5 witness scenario: an api-18 frame whose RSSI byte is 0. -/
def c5Input : PollInput := input18 (frame18 0 0 0 0) 0 0 0

/-- The item list `updateDispatch` feeds through the emission loop: the
single item, the sorted list, or nothing. -/
def dispatchItems (nodes : List Node) (upds : List (Nat × Nat × ℚ)) :
    List (Nat × Nat × ℚ) :=
  if upds.length = 1 then upds
  else if 1 < upds.length then
    upds.insertionSort (fun a b => lapKey nodes a ≤ lapKey nodes b)
  else []

/-- C7 witness scenario: a first-observation poll with `lap_id = 3`. -/
def c7Input : PollInput := input18 (frame18 3 0 50 60) 0 0 0

/-- The C7 witness cycle's outcome. -/
def c7Run : List Node × List Event :=
  (update [node18] (fun _ => c7Input)).toOption.getD ([], [])

/-- An api-18 frame with a crossing byte (offset 8). -/
def c8Frame (lapId cross : Nat) : List Nat :=
  [lapId, 0, 0, 50, 60, 0, 0, 0, cross, 0, 0, 0, 0, 0, 0, 0, 0, 0, 0]

/-- C8 witness scenario: two api-18 nodes, both with `last_lap_id = 0`;
node 0 at 20000 ms also toggles its crossing flag, node 1 at 19800 ms. -/
def c8NodeA : Node :=
  { node18 with last_lap_id := 0, lap_ms_since_start := 20000 }

def c8NodeB : Node :=
  { node18 with last_lap_id := 0, lap_ms_since_start := 19800 }

def c8Inputs : Nat → PollInput := fun i =>
  if i = 0 then input18 (c8Frame 1 1) 0 0 0 else input18 (c8Frame 1 0) 0 0 0

def c8Run : List Node × List Event :=
  (update [c8NodeA, c8NodeB] c8Inputs).toOption.getD ([], [])

/-- C10 witness scenario: an api-18 node with a distinctive
`lap_ms_since_start`. -/
def c10Node : Node := { node18 with lap_ms_since_start := 777 }

def c10Input : PollInput := input18 (frame18 1 0 50 60) 0 0 0

def c10Run : List Node × List Event :=
  (update [c10Node] (fun _ => c10Input)).toOption.getD ([], [])

end RH

namespace RH

/-! ## Helper lemmas -/

theorem sav_loop_retry_le (echoes : Nat → Option Int)
    (accept : Option Int → Bool) :
    ∀ (fuel retry : Nat) (out : Option Int),
      retry ≤ (sav_loop echoes accept fuel retry out).2
  | 0, _, _ => Nat.le_refl _
  | fuel + 1, retry, _ => by
    simp only [sav_loop]
    split
    · exact Nat.le_refl _
    · exact Nat.le_trans (Nat.le_succ _)
        (sav_loop_retry_le echoes accept fuel (retry + 1) _)

/-- The retry loop exits with `retry_count = 0` exactly when the first
read-back is accepted. -/
theorem sav_loop_first_attempt (e : Nat → Option Int) (P : Option Int → Bool)
    (fuel : Nat) : (sav_loop e P (fuel + 1) 0 none).2 = 0 ↔ P (e 0) = true := by
  have hstep : sav_loop e P (fuel + 1) 0 none
      = if P (e 0) then (e 0, 0) else sav_loop e P fuel 1 (e 0) := rfl
  rw [hstep]
  by_cases hp : P (e 0) = true
  · simp [hp]
  · rw [if_neg hp]
    have h1 := sav_loop_retry_le e P fuel 1 (e 0)
    constructor
    · intro h; omega
    · intro h; exact absurd h hp

/-! ## Claims -/

/-- C1: the code computes `lap_time_ms = lap_differential + server_oneway`
with `server_oneway` in seconds, so with `lap_differential_ms = 250` and a
20 ms round trip the second api-18 frame fires the pass-record callback
with lap time `250 + 1/100`, not the claimed `250 + 10 = 260` (the
one-way latency is added unconverted; source `LAP_SOURCE_REALTIME` does
hold).  First poll: no callback, `last_lap_id` becomes 0. -/
theorem lap_time_adds_oneway_in_seconds :
    (update [node18] (fun _ => c1Input1)).toOption.map Prod.snd = some [] ∧
    c1Mid.map Node.last_lap_id = [0] ∧
    (update c1Mid (fun _ => c1Input2)).toOption.map Prod.snd =
      some [Event.lap 0 (250 + 1 / 100) 0 LAP_SOURCE_REALTIME] ∧
    (250 + 1 / 100 : ℚ) ≠ 260 := by
  refine ⟨by decide, by decide, ?_, by norm_num⟩
  norm_num [update, updateScan, updateNode, updateDispatch, emitLaps, decodeFrame,
    lapFields, crossingStep,
    captureEnterStep, captureExitStep, historyStep, historySamples, peakSamples,
    lapStatsReadSize, offsetRssi, frameRssi, unpack_rssi, unpack_8, unpack_16,
    unpack_32, rssiInRange, lapKey, c1Mid, c1Input1, c1Input2, input18, frame18,
    node18, blankNode, MIN_RSSI_VALUE, MAX_RSSI_VALUE, LAP_SOURCE_REALTIME]
  exact ⟨_, rfl⟩

/-- C2: after `I2C_RETRY_COUNT` checksum failures `read_block` does not
return `None`: the loop variable `data` still holds the last raw
(unvalidated, checksum byte included) block, and that is what is
returned.  Exhaustion by bus I/O errors alone does return `None`, and a
valid block is returned with the checksum byte stripped. -/
theorem read_block_checksum_exhaustion_returns_raw :
    read_block (fun _ => .okRaw [1, 2, 0]) = some [1, 2, 0] ∧
    some [1, 2, 0] ≠ (none : Option (List Nat)) ∧
    read_block (fun _ => .ioErr) = none ∧
    read_block (fun _ => .okRaw [1, 2, 3]) = some [1, 2] := by
  refine ⟨by decide, by decide, by decide, by decide⟩

/-- C4: `set_and_validate_value_rssi` has no `return` statements, so
`set_enter_at_level` / `set_exit_at_level` store Python `None` into the
node's level field even though the echoed read-back value (here 100,
accepted on the first attempt) is available inside the discarded
sub-call. -/
theorem set_enter_at_level_stores_python_none :
    set_and_validate_value_8 (fun _ => some 100) 100 = (100, 0) ∧
    set_enter_at_level true 18 (fun _ => some 100) 100 (some 7) = none ∧
    set_exit_at_level true 18 (fun _ => some 100) 100 (some 7) = none ∧
    (none : Option Int) ≠ some 100 := by
  refine ⟨by decide, by decide, by decide, by decide⟩

/-- C9: the 16-bit set-and-validate exits its loop on the first attempt
exactly when the first read-back equals `in_value` or
`in_value + 2^16` (the 32-bit variant with `2^32`); writing `-1` with an
echo of 65535 therefore succeeds with retry count 0 and returns 65535. -/
theorem sav16_success_exactly_on_match_or_wraparound :
    (∀ (echoes : Nat → Option Int) (in_value : Int),
        (set_and_validate_value_16 echoes in_value).2 = 0 ↔
          (echoes 0 = some in_value ∨ echoes 0 = some (in_value + 2 ^ 16))) ∧
    (∀ (echoes : Nat → Option Int) (in_value : Int),
        (set_and_validate_value_32 echoes in_value).2 = 0 ↔
          (echoes 0 = some in_value ∨ echoes 0 = some (in_value + 2 ^ 32))) ∧
    set_and_validate_value_16 (fun _ => some 65535) (-1) = (65535, 0) := by
  refine ⟨?_, ?_, by decide⟩
  · intro echoes in_value
    have base := sav_loop_first_attempt echoes
      (fun out => out == some in_value || out == some (in_value + 2 ^ 16)) 4
    simpa only [set_and_validate_value_16, I2C_RETRY_COUNT, Bool.or_eq_true,
      beq_iff_eq, Nat.reduceAdd] using base
  · intro echoes in_value
    have base := sav_loop_first_attempt echoes
      (fun out => out == some in_value || out == some (in_value + 2 ^ 32)) 4
    simpa only [set_and_validate_value_32, I2C_RETRY_COUNT, Bool.or_eq_true,
      beq_iff_eq, Nat.reduceAdd] using base

/-- C3 (counterexample): the spec's size table is wrong at two points:
a node at api_level 17 (api-valid, so `decide (10 ≤ 17)`) is read with 28
bytes, not the claimed 20, and a node at api_level 7 (not api-valid but
`≥ 5`) with 18 bytes, not the claimed legacy 17. -/
theorem lapStats_size_spec_table_cx :
    lapStatsReadSize (decide (10 ≤ 17)) 17 = 28 ∧ (28 : Nat) ≠ 20 ∧
    lapStatsReadSize (decide (10 ≤ 7)) 7 = 18 ∧ (18 : Nat) ≠ 17 := by
  refine ⟨by decide, by decide, by decide, by decide⟩

/-- C3 (amended): with `api_valid_flag ⇔ api_level ≥ 10` (as discovery
sets it), `update` requests 19 bytes at api ≥ 18, 28 at api = 17, 20 at
13..16, 18 at 5..12, and 17 below 5. -/
theorem lapStats_size_by_api_level (api_level : Nat) :
    lapStatsReadSize (decide (10 ≤ api_level)) api_level =
      if 18 ≤ api_level then 19
      else if api_level = 17 then 28
      else if 13 ≤ api_level then 20
      else if 5 ≤ api_level then 18
      else 17 := by
  simp only [lapStatsReadSize, Bool.or_eq_true, decide_eq_true_eq, ge_iff_le]
  split_ifs <;> omega

/-- C5: an accepted read whose decoded RSSI falls outside
`[MIN_RSSI_VALUE, MAX_RSSI_VALUE]` leaves the node's state (including
`current_rssi`, the capture accumulators and the history buffers)
completely unchanged and contributes neither a crossing nor a lap entry;
only the `offset_nodeNadirRssi` binding (assigned before the range check)
can change. -/
theorem out_of_range_rssi_skips_node (bound : Bool) (node : Node)
    (inp : PollInput) (data : List Nat)
    (hfreq : node.frequency ≠ 0)
    (hread : inp.read (lapStatsReadSize node.api_valid_flag node.api_level)
      = some data)
    (hout : ¬ rssiInRange (frameRssi node.api_level data)) :
    updateNode bound node inp =
      .ok (node, false, none, if node.api_level ≥ 18 then true else bound) := by
  unfold updateNode
  rw [if_neg hfreq, hread]
  simp only [if_neg hout]

/-- C5 witness: a concrete api-18 node and a frame with RSSI byte 0. -/
theorem out_of_range_rssi_skips_node_witness :
    updateNode false node18 c5Input = .ok (node18, false, none, true) := by
  have h := out_of_range_rssi_skips_node false node18 c5Input (frame18 0 0 0 0)
    (by decide) (by decide) (by decide)
  simpa using h

/-- C6 (counterexample): completing an enter-at capture with samples
{1, 2} yields `enter_at_level = 1` (Python 2 floors the integer
division), not the claimed `round(3/2) = 2`; and when the frame reports
`node_peak_rssi = 3` the peak clamp yields `-2`, below the minimum
accumulated sample 1, refuting `min_sample ≤ enter_at_level`. -/
theorem capture_enter_floor_and_clamp_cx :
    (updateNode false c6NodeA c6InputA).toOption.map
        (fun r => r.1.enter_at_level) = some (some 1) ∧
    spec_enter_level 3 2 = 2 ∧ ((some 1 : Option Int) ≠ some 2) ∧
    (updateNode false c6NodeA c6InputB).toOption.map
        (fun r => r.1.enter_at_level) = some (some (-2)) ∧
    ¬ (1 ≤ (-2 : Int)) := by
  refine ⟨?_, ?_, by decide, ?_, by decide⟩
  · norm_num [updateNode, decodeFrame, lapFields, crossingStep,
      captureEnterStep, captureExitStep,
      historyStep, historySamples, peakSamples, lapStatsReadSize, offsetRssi,
      frameRssi, unpack_rssi, unpack_8, unpack_16, unpack_32, rssiInRange,
      c6NodeA, c6InputA, input18, frame18, node18, blankNode, Except.toOption,
      MIN_RSSI_VALUE, MAX_RSSI_VALUE, ENTER_AT_PEAK_MARGIN]
  · norm_num [spec_enter_level, spec_round]
  · norm_num [updateNode, decodeFrame, lapFields, crossingStep,
      captureEnterStep, captureExitStep,
      historyStep, historySamples, peakSamples, lapStatsReadSize, offsetRssi,
      frameRssi, unpack_rssi, unpack_8, unpack_16, unpack_32, rssiInRange,
      c6NodeA, c6InputB, input18, frame18, node18, blankNode, Except.toOption,
      MIN_RSSI_VALUE, MAX_RSSI_VALUE, ENTER_AT_PEAK_MARGIN]

/-- C6 (amended): when the enter-at capture deadline elapses during a
poll whose accumulated samples are `S` (the accumulators hold their sum
and, after this poll's increment, their count), the flag clears and
`enter_at_level` becomes the floored mean `S.sum / S.length` subject to
the peak clamp; the floored mean lies between any lower and upper bound
of the samples, and whenever `node_peak_rssi > 0` the final level keeps
`node_peak_rssi - enter_at_level ≥ ENTER_AT_PEAK_MARGIN` (the clamp may,
however, take the level below the minimum sample). -/
theorem capture_enter_completion (n : Node) (nowMs : ℚ) (S : List Nat)
    (hflag : n.cap_enter_at_flag = true)
    (hdl : nowMs ≥ n.cap_enter_at_millis)
    (hsum : n.cap_enter_at_total + n.current_rssi = S.sum)
    (hcnt : n.cap_enter_at_count + 1 = S.length) :
    (captureEnterStep n nowMs).cap_enter_at_flag = false ∧
    (captureEnterStep n nowMs).enter_at_level =
      some (if 0 < n.node_peak_rssi ∧
              (n.node_peak_rssi : Int) - ((S.sum / S.length : Nat) : Int)
                < ENTER_AT_PEAK_MARGIN
            then (n.node_peak_rssi : Int) - ENTER_AT_PEAK_MARGIN
            else ((S.sum / S.length : Nat) : Int)) ∧
    (∀ m M, (∀ x ∈ S, m ≤ x) → (∀ x ∈ S, x ≤ M) →
      m ≤ S.sum / S.length ∧ S.sum / S.length ≤ M) ∧
    (0 < n.node_peak_rssi →
      (n.node_peak_rssi : Int) - ((captureEnterStep n nowMs).enter_at_level.getD 0)
        ≥ ENTER_AT_PEAK_MARGIN) := by
  have hlen : 0 < S.length := by omega
  have hstep : captureEnterStep n nowMs =
      {n with cap_enter_at_total := S.sum, cap_enter_at_count := S.length,
              enter_at_level := some (if 0 < n.node_peak_rssi ∧
                  (n.node_peak_rssi : Int) - ((S.sum / S.length : Nat) : Int)
                    < ENTER_AT_PEAK_MARGIN
                then (n.node_peak_rssi : Int) - ENTER_AT_PEAK_MARGIN
                else ((S.sum / S.length : Nat) : Int)),
              cap_enter_at_flag := false} := by
    unfold captureEnterStep
    rw [if_pos hflag]
    simp only [hsum, hcnt]
    rw [if_pos hdl]
  refine ⟨by rw [hstep], by rw [hstep], ?_, ?_⟩
  · intro m M hm hM
    constructor
    · have h1 : S.length * m ≤ S.sum := by
        have := List.card_nsmul_le_sum S m hm
        simpa [smul_eq_mul] using this
      have h2 : m = S.length * m / S.length := (Nat.mul_div_cancel_left m hlen).symm
      rw [h2]
      exact Nat.div_le_div_right h1
    · have h1 : S.sum ≤ S.length * M := by
        have := List.sum_le_card_nsmul S M hM
        simpa [smul_eq_mul] using this
      have h2 : S.length * M / S.length = M := Nat.mul_div_cancel_left M hlen
      calc S.sum / S.length ≤ S.length * M / S.length := Nat.div_le_div_right h1
        _ = M := h2
  · intro hpk
    rw [hstep]
    simp only [Option.getD_some]
    split_ifs with hcl
    · simp [ENTER_AT_PEAK_MARGIN]
    · rw [not_and_or] at hcl
      rcases hcl with hcl | hcl
      · exact absurd hpk hcl
      · omega

/-- C6 witness: the amended statement's flag-clearing conclusion at the
concrete capture completion with samples {1, 2}. -/
theorem capture_enter_completion_witness :
    (captureEnterStep c6WitNode 0).cap_enter_at_flag = false :=
  (capture_enter_completion c6WitNode 0 [1, 2] (by decide)
    (by norm_num [c6WitNode, c6NodeA, node18, blankNode])
    (by decide) (by decide)).1

/-! ## Step-preservation lemmas (towards the cycle-level claims) -/

theorem captureEnterStep_preserves (n : Node) (nowMs : ℚ) :
    (captureEnterStep n nowMs).last_lap_id = n.last_lap_id ∧
    (captureEnterStep n nowMs).lap_ms_since_start = n.lap_ms_since_start ∧
    (captureEnterStep n nowMs).api_level = n.api_level := by
  unfold captureEnterStep
  dsimp only
  split_ifs <;> exact ⟨rfl, rfl, rfl⟩

theorem captureExitStep_preserves (n : Node) (nowMs : ℚ) :
    (captureExitStep n nowMs).last_lap_id = n.last_lap_id ∧
    (captureExitStep n nowMs).lap_ms_since_start = n.lap_ms_since_start ∧
    (captureExitStep n nowMs).api_level = n.api_level := by
  unfold captureExitStep
  dsimp only
  split_ifs <;> exact ⟨rfl, rfl, rfl⟩

theorem historyStep_preserves (n : Node) (data : List Nat) (tReq tRes : ℚ) :
    (historyStep n data tReq tRes).last_lap_id = n.last_lap_id ∧
    (historyStep n data tReq tRes).lap_ms_since_start = n.lap_ms_since_start ∧
    (historyStep n data tReq tRes).api_level = n.api_level := by
  unfold historyStep
  dsimp only
  split_ifs <;> exact ⟨rfl, rfl, rfl⟩

theorem lapFields_last_lap (n0 : Node) (data : List Nat) (tq tr : ℚ) :
    (lapFields n0 data tq tr).1.last_lap_id = n0.last_lap_id := by
  unfold lapFields; dsimp only; split_ifs <;> rfl

theorem lapFields_api (n0 : Node) (data : List Nat) (tq tr : ℚ) :
    (lapFields n0 data tq tr).1.api_level = n0.api_level := by
  unfold lapFields; dsimp only; split_ifs <;> rfl

theorem lapFields_lap_ms18 (n0 : Node) (data : List Nat) (tq tr : ℚ)
    (h18 : n0.api_level ≥ 18) :
    (lapFields n0 data tq tr).1.lap_ms_since_start = n0.lap_ms_since_start := by
  unfold lapFields; dsimp only; rw [if_pos h18]

theorem crossingStep_last_lap (n : Node) (cf : Bool) :
    (crossingStep n cf).1.last_lap_id = n.last_lap_id := by
  unfold crossingStep; split_ifs <;> rfl

theorem crossingStep_api (n : Node) (cf : Bool) :
    (crossingStep n cf).1.api_level = n.api_level := by
  unfold crossingStep; split_ifs <;> rfl

theorem crossingStep_lap_ms (n : Node) (cf : Bool) :
    (crossingStep n cf).1.lap_ms_since_start = n.lap_ms_since_start := by
  unfold crossingStep; split_ifs <;> rfl

/-- `decodeFrame` never touches `last_lap_id`, and touches
`lap_ms_since_start` only on the api-valid, `api_level < 18` path. -/
theorem decodeFrame_preserves (b : Bool) (n0 : Node) (data : List Nat)
    (tq tr : ℚ) (n1 : Node) (c : Bool) (t : ℚ)
    (h : decodeFrame b n0 data tq tr = .ok (n1, c, t)) :
    n1.last_lap_id = n0.last_lap_id ∧ n1.api_level = n0.api_level ∧
    (n0.api_level ≥ 18 → n1.lap_ms_since_start = n0.lap_ms_since_start) := by
  unfold decodeFrame at h
  dsimp only at h
  split_ifs at h <;>
    simp only [Except.ok.injEq, Prod.mk.injEq, reduceCtorEq] at h <;>
    obtain ⟨rfl, -, -⟩ := h <;>
    exact ⟨by simp [crossingStep_last_lap, lapFields_last_lap],
           by simp [crossingStep_api, lapFields_api],
           fun h18 => by
             simp [crossingStep_lap_ms, lapFields_lap_ms18, h18]⟩

theorem updateNode_preserves (b : Bool) (node : Node) (inp : PollInput)
    (n' : Node) (c : Bool) (l : Option (Nat × ℚ)) (b' : Bool)
    (h : updateNode b node inp = .ok (n', c, l, b')) :
    n'.last_lap_id = node.last_lap_id ∧
    (node.api_level ≥ 18 → n'.lap_ms_since_start = node.lap_ms_since_start) := by
  unfold updateNode at h
  split at h
  · simp only [Except.ok.injEq, Prod.mk.injEq] at h
    obtain ⟨rfl, -, -, -⟩ := h
    exact ⟨rfl, fun _ => rfl⟩
  · split at h
    · simp only [Except.ok.injEq, Prod.mk.injEq] at h
      obtain ⟨rfl, -, -, -⟩ := h
      exact ⟨rfl, fun _ => rfl⟩
    · rename_i data hdata
      dsimp only at h
      split at h
      · split at h
        · exact Except.noConfusion h
        · rename_i n1 c1 tm heq
          simp only [Except.ok.injEq, Prod.mk.injEq] at h
          obtain ⟨rfl, -, -, -⟩ := h
          obtain ⟨hd1, hd2, hd3⟩ := decodeFrame_preserves _ _ _ _ _ _ _ _ heq
          have he := captureEnterStep_preserves n1 inp.nowMs
          have hx := captureExitStep_preserves (captureEnterStep n1 inp.nowMs)
            inp.nowMs
          have hh := historyStep_preserves
            (captureExitStep (captureEnterStep n1 inp.nowMs) inp.nowMs) data
            inp.tReq inp.tRes
          constructor
          · rw [hh.1, hx.1, he.1, hd1]
          · intro h18
            rw [hh.2.1, hx.2.1, he.2.1, hd3 h18]
      · simp only [Except.ok.injEq, Prod.mk.injEq] at h
        obtain ⟨rfl, -, -, -⟩ := h
        exact ⟨rfl, fun _ => rfl⟩

/-- When a node whose `last_lap_id` is the `-1` sentinel produces an
accepted frame, the scan body hands `upd_list` the frame's `lap_id`
(a byte, never equal to `-1`). -/
theorem updateNode_lap_first (b : Bool) (node : Node) (inp : PollInput)
    (n' : Node) (c : Bool) (l : Option (Nat × ℚ)) (b' : Bool) (data : List Nat)
    (h : updateNode b node inp = .ok (n', c, l, b'))
    (hread : inp.read (lapStatsReadSize node.api_valid_flag node.api_level)
      = some data)
    (hfreq : node.frequency ≠ 0)
    (hin : rssiInRange (frameRssi node.api_level data))
    (hfirst : node.last_lap_id = -1) :
    ∃ t, l = some (data.getD 0 0, t) := by
  unfold updateNode at h
  rw [if_neg hfreq, hread] at h
  dsimp only at h
  rw [if_pos hin] at h
  split at h
  · exact Except.noConfusion h
  · rename_i n1 c1 tm heq
    simp only [Except.ok.injEq, Prod.mk.injEq] at h
    obtain ⟨-, -, hl, -⟩ := h
    have hne : ((data.getD 0 0 : Nat) : Int) ≠ node.last_lap_id := by
      rw [hfirst]; omega
    rw [if_pos hne] at hl
    exact ⟨tm, hl.symm⟩

/-- The node scan: output length, `upd_list` index bounds and strict
index ordering, and the per-node correspondence (each position was
produced by one `updateNode` call whose lap entry, if any, is in
`upd_list`). -/
theorem updateScan_spec (inputs : Nat → PollInput) (nodes : List Node) :
    ∀ (b : Bool) (i0 : Nat) (ns : List Node) (cs : List Nat)
      (us : List (Nat × Nat × ℚ)),
      updateScan inputs b i0 nodes = .ok (ns, cs, us) →
      ns.length = nodes.length ∧
      (∀ it ∈ us, i0 ≤ it.1 ∧ it.1 < i0 + nodes.length) ∧
      (us.map Prod.fst).Pairwise (· < ·) ∧
      (∀ j, j < nodes.length →
        ∃ bj n' cj lj bj',
          updateNode bj (nodes.getD j blankNode) (inputs (i0 + j))
            = .ok (n', cj, lj, bj') ∧
          ns.getD j blankNode = n' ∧
          (∀ L t, lj = some (L, t) → (i0 + j, L, t) ∈ us)) := by
  induction nodes with
  | nil =>
    intro b i0 ns cs us h
    simp only [updateScan, Except.ok.injEq, Prod.mk.injEq] at h
    obtain ⟨rfl, rfl, rfl⟩ := h
    refine ⟨rfl, by simp, by simp, ?_⟩
    intro j hj
    exact absurd hj (by simp)
  | cons n rest ih =>
    intro b i0 ns cs us h
    unfold updateScan at h
    split at h
    · exact Except.noConfusion h
    · rename_i n' crossed lap? bound' hn
      split at h
      · exact Except.noConfusion h
      · rename_i ns' crosses upds hrest
        simp only [Except.ok.injEq, Prod.mk.injEq] at h
        obtain ⟨rfl, rfl, rfl⟩ := h
        obtain ⟨ihlen, ihbd, ihpw, ihspec⟩ := ih bound' (i0 + 1) ns' crosses upds
          hrest
        refine ⟨by simp [ihlen], ?_, ?_, ?_⟩
        · intro it hit
          cases lap? with
          | none =>
            simp only at hit
            have := ihbd it hit
            simp only [List.length_cons]
            omega
          | some Lt =>
            obtain ⟨L, t⟩ := Lt
            simp only [List.mem_cons] at hit
            rcases hit with rfl | hit
            · simp only [List.length_cons]; omega
            · have := ihbd it hit
              simp only [List.length_cons]
              omega
        · cases lap? with
          | none => exact ihpw
          | some Lt =>
            obtain ⟨L, t⟩ := Lt
            refine List.Pairwise.cons ?_ ihpw
            intro y hy
            simp only [List.mem_map] at hy
            obtain ⟨it, hit, rfl⟩ := hy
            have := ihbd it hit
            omega
        · intro j hj
          cases j with
          | zero =>
            refine ⟨b, n', crossed, lap?, bound', by simpa using hn, by simp, ?_⟩
            intro L t hL
            subst hL
            simp
          | succ k =>
            have hk : k < rest.length := by
              simpa [Nat.succ_lt_succ_iff] using hj
            obtain ⟨bk, nk, ck, lk, bk', hup, hget, hmem⟩ := ihspec k hk
            refine ⟨bk, nk, ck, lk, bk', ?_, by simpa using hget, ?_⟩
            · have : i0 + (k + 1) = i0 + 1 + k := by omega
              rw [this]
              exact hup
            · intro L t hL
              have := hmem L t hL
              have harith : i0 + (k + 1) = i0 + 1 + k := by omega
              rw [harith]
              cases lap? with
              | none => exact this
              | some Lt => exact List.mem_cons_of_mem _ this

/-! ## Lap-dispatch lemmas -/

/-- What a positional lookup sees after the dispatch loop overwrites one
node's `last_lap_id`. -/
theorem getD_set_last_eq (nodes : List Node) (j : Nat) (L : Int) (k : Nat) :
    (nodes.set j {nodes.getD j blankNode with last_lap_id := L}).getD k
        blankNode
      = if k = j ∧ j < nodes.length then
          {nodes.getD j blankNode with last_lap_id := L}
        else nodes.getD k blankNode := by
  by_cases hkj : k = j
  · subst hkj
    by_cases hk : k < nodes.length
    · simp [List.getD_eq_getElem?_getD, List.getElem?_set_self hk, hk]
    · rw [List.set_eq_of_length_le (Nat.le_of_not_lt hk)]
      simp [hk]
  · simp only [List.getD_eq_getElem?_getD,
      List.getElem?_set_ne (fun hh => hkj hh.symm)]
    simp [hkj]

/-- Overwriting one node's `last_lap_id` changes no `lap_ms_since_start`
anywhere, and no other position at all. -/
theorem getD_set_last (nodes : List Node) (j : Nat) (L : Int) (k : Nat) :
    ((nodes.set j {nodes.getD j blankNode with last_lap_id := L}).getD k
        blankNode).lap_ms_since_start
      = (nodes.getD k blankNode).lap_ms_since_start ∧
    (k ≠ j →
      (nodes.set j {nodes.getD j blankNode with last_lap_id := L}).getD k
        blankNode = nodes.getD k blankNode) := by
  rw [getD_set_last_eq]
  constructor
  · split_ifs with hc
    · obtain ⟨rfl, -⟩ := hc
      rfl
    · rfl
  · intro hkj
    rw [if_neg (fun hc => hkj hc.1)]

/-- The dispatch loop never changes any node's `lap_ms_since_start`. -/
theorem emitLaps_lap_ms (items : List (Nat × Nat × ℚ)) :
    ∀ (nodes : List Node) (k : Nat),
      ((emitLaps nodes items).1.getD k blankNode).lap_ms_since_start
        = (nodes.getD k blankNode).lap_ms_since_start := by
  induction items with
  | nil => intro nodes k; rfl
  | cons it rest ih =>
    obtain ⟨i, L, t⟩ := it
    intro nodes k
    simp only [emitLaps]
    rw [ih]
    exact (getD_set_last nodes i (L : Int) k).1

/-- Positions whose index appears in no item are untouched and get no
lap event. -/
theorem emitLaps_untouched (items : List (Nat × Nat × ℚ)) :
    ∀ (nodes : List Node) (i : Nat), (∀ it ∈ items, it.1 ≠ i) →
      (emitLaps nodes items).1.getD i blankNode = nodes.getD i blankNode ∧
      (∀ t ms s, Event.lap i t ms s ∉ (emitLaps nodes items).2) := by
  induction items with
  | nil =>
    intro nodes i _
    exact ⟨rfl, by intro t ms s; simp [emitLaps]⟩
  | cons it rest ih =>
    obtain ⟨j, L, t0⟩ := it
    intro nodes i hnot
    have hji : j ≠ i := hnot _ (List.mem_cons_self _ _)
    have hrest : ∀ it2 ∈ rest, it2.1 ≠ i := fun it2 hit2 =>
      hnot it2 (List.mem_cons_of_mem _ hit2)
    obtain ⟨ih1, ih2⟩ :=
      ih (nodes.set j {nodes.getD j blankNode with last_lap_id := (L : Int)}) i
        hrest
    constructor
    · simp only [emitLaps]
      rw [ih1]
      exact (getD_set_last nodes j (L : Int) i).2 (fun hh => hji hh.symm)
    · intro t ms s hmem
      simp only [emitLaps, List.mem_append] at hmem
      rcases hmem with hmem | hmem
      · split at hmem
        · simp only [List.mem_singleton, Event.lap.injEq] at hmem
          exact hji hmem.1.symm
        · exact absurd hmem (List.not_mem_nil _)
      · exact ih2 t ms s hmem

/-- A position whose `last_lap_id` is the `-1` sentinel at dispatch time
gets no lap event when no index repeats. -/
theorem emitLaps_suppress (items : List (Nat × Nat × ℚ)) :
    ∀ (nodes : List Node) (i : Nat),
      (nodes.getD i blankNode).last_lap_id = -1 →
      (items.map Prod.fst).Pairwise (· ≠ ·) →
      ∀ t ms s, Event.lap i t ms s ∉ (emitLaps nodes items).2 := by
  induction items with
  | nil => intro nodes i _ _ t ms s; simp [emitLaps]
  | cons it rest ih =>
    obtain ⟨j, L, t0⟩ := it
    intro nodes i hlast hpw t ms s hmem
    rw [List.map_cons] at hpw
    obtain ⟨hj, hpw'⟩ := List.pairwise_cons.mp hpw
    simp only [emitLaps, List.mem_append] at hmem
    by_cases hji : j = i
    · subst hji
      rcases hmem with hmem | hmem
      · rw [if_neg (fun hcon => hcon hlast)] at hmem
        exact absurd hmem (List.not_mem_nil _)
      · have hnot : ∀ it2 ∈ rest, it2.1 ≠ j := by
          intro it2 hit2
          exact fun hh => (hj it2.1 (List.mem_map_of_mem _ hit2)) hh.symm
        exact (emitLaps_untouched rest _ j hnot).2 t ms s hmem
    · rcases hmem with hmem | hmem
      · split at hmem
        · simp only [List.mem_singleton, Event.lap.injEq] at hmem
          exact hji hmem.1.symm
        · exact absurd hmem (List.not_mem_nil _)
      · refine ih _ i ?_ hpw' t ms s hmem
        rw [(getD_set_last nodes j (L : Int) i).2 (fun hh => hji hh.symm)]
        exact hlast

/-- With pairwise-distinct indices, the dispatch loop assigns each
member item's `new_lap_id` into its node. -/
theorem emitLaps_assign (items : List (Nat × Nat × ℚ)) :
    ∀ (nodes : List Node) (i L : Nat) (t : ℚ),
      (items.map Prod.fst).Pairwise (· ≠ ·) →
      (i, L, t) ∈ items → i < nodes.length →
      ((emitLaps nodes items).1.getD i blankNode).last_lap_id = (L : Int) := by
  induction items with
  | nil => intro nodes i L t _ hmem; exact absurd hmem (List.not_mem_nil _)
  | cons it rest ih =>
    obtain ⟨j, L0, t0⟩ := it
    intro nodes i L t hpw hmem hlen
    rw [List.map_cons] at hpw
    obtain ⟨hj, hpw'⟩ := List.pairwise_cons.mp hpw
    rcases List.mem_cons.mp hmem with heq | hmem
    · obtain ⟨rfl, rfl, rfl⟩ := Prod.mk.injEq .. ▸ (by
        injection heq with h1 h2
        injection h2 with h2 h3
        exact ⟨h1, h2, h3⟩ : i = j ∧ L = L0 ∧ t = t0)
      simp only [emitLaps]
      have hnot : ∀ it2 ∈ rest, it2.1 ≠ i := by
        intro it2 hit2
        exact fun hh => (hj it2.1 (List.mem_map_of_mem _ hit2)) hh.symm
      rw [(emitLaps_untouched rest _ i hnot).1]
      simp [List.getD_eq_getElem?_getD, List.getElem?_set_self hlen]
    · simp only [emitLaps]
      exact ih _ i L t hpw' hmem (by simpa using hlen)

/-- Every emitted lap event belongs to an item and records that node's
`lap_ms_since_start` (at dispatch entry) and `LAP_SOURCE_REALTIME`. -/
theorem emitLaps_events (items : List (Nat × Nat × ℚ)) :
    ∀ (nodes : List Node), ∀ e ∈ (emitLaps nodes items).2,
      ∃ i L t, (i, L, t) ∈ items ∧
        e = Event.lap i t ((nodes.getD i blankNode).lap_ms_since_start)
          LAP_SOURCE_REALTIME := by
  induction items with
  | nil => intro nodes e hmem; simp [emitLaps] at hmem
  | cons it rest ih =>
    obtain ⟨j, L, t0⟩ := it
    intro nodes e hmem
    simp only [emitLaps, List.mem_append] at hmem
    rcases hmem with hmem | hmem
    · split at hmem
      · simp only [List.mem_singleton] at hmem
        exact ⟨j, L, t0, List.mem_cons_self _ _, hmem⟩
      · exact absurd hmem (List.not_mem_nil _)
    · obtain ⟨i, L', t', hit, rfl⟩ := ih _ e hmem
      refine ⟨i, L', t', List.mem_cons_of_mem _ hit, ?_⟩
      rw [(getD_set_last nodes j (L : Int) i).1]

/-- The emitted lap events' `lap_ms_since_start` keys form a sublist of
the items' sort keys. -/
theorem emitLaps_keys_sublist (items : List (Nat × Nat × ℚ)) :
    ∀ (nodes : List Node),
      List.Sublist ((emitLaps nodes items).2.map Event.msKey)
        (items.map (lapKey nodes)) := by
  induction items with
  | nil => intro nodes; simp [emitLaps]
  | cons it rest ih =>
    obtain ⟨j, L, t0⟩ := it
    intro nodes
    simp only [emitLaps, List.map_append, List.map_cons]
    have hih :
        List.Sublist
          ((emitLaps (nodes.set j
              {nodes.getD j blankNode with last_lap_id := (L : Int)}) rest).2.map
            Event.msKey)
          (rest.map (lapKey nodes)) := by
      have := ih (nodes.set j
        {nodes.getD j blankNode with last_lap_id := (L : Int)})
      have hmap : rest.map (lapKey (nodes.set j
          {nodes.getD j blankNode with last_lap_id := (L : Int)}))
          = rest.map (lapKey nodes) := by
        refine List.map_congr_left ?_
        intro it2 _
        exact (getD_set_last nodes j (L : Int) it2.1).1
      rwa [hmap] at this
    split
    · simp only [List.map_cons, List.map_nil, List.singleton_append]
      exact List.Sublist.cons₂ _ hih
    · simp only [List.map_nil, List.nil_append]
      exact List.Sublist.cons _ hih

theorem updateDispatch_eq (nodes : List Node) (upds : List (Nat × Nat × ℚ)) :
    updateDispatch nodes upds = emitLaps nodes (dispatchItems nodes upds) := by
  unfold updateDispatch dispatchItems
  split_ifs <;> rfl

theorem dispatchItems_perm (nodes : List Node) (upds : List (Nat × Nat × ℚ)) :
    (dispatchItems nodes upds).Perm upds := by
  unfold dispatchItems
  split_ifs with h1 h2
  · exact List.Perm.refl _
  · exact List.perm_insertionSort _ _
  · have h0 : upds = [] := List.length_eq_zero.mp (by omega)
    subst h0
    exact List.Perm.refl _

theorem dispatchItems_sorted (nodes : List Node) (upds : List (Nat × Nat × ℚ)) :
    (dispatchItems nodes upds).Pairwise
      (fun a b => lapKey nodes a ≤ lapKey nodes b) := by
  unfold dispatchItems
  split_ifs with h1 h2
  · obtain ⟨x, rfl⟩ := List.length_eq_one.mp h1
    simp
  · haveI : IsTotal (Nat × Nat × ℚ)
        (fun a b => lapKey nodes a ≤ lapKey nodes b) := ⟨fun a b => le_total _ _⟩
    haveI : IsTrans (Nat × Nat × ℚ)
        (fun a b => lapKey nodes a ≤ lapKey nodes b) :=
      ⟨fun a b c hab hbc => le_trans hab hbc⟩
    exact List.sorted_insertionSort _ _
  · simp

/-- An out-of-range positional lookup yields the blank node. -/
theorem getD_blank_of_le (l : List Node) (k : Nat) (h : l.length ≤ k) :
    l.getD k blankNode = blankNode := by
  simp [List.getD_eq_getElem?_getD, List.getElem?_eq_none h]

/-- C7: a node whose `last_lap_id` is the `-1` sentinel at the start of
a cycle gets no pass-record callback in that cycle whatever the frames
hold; and when its frame is read and its RSSI accepted, `last_lap_id` is
still assigned the newly observed `lap_id` at the end of the cycle. -/
theorem update_first_observation (nodes : List Node) (inputs : Nat → PollInput)
    (ns : List Node) (tr : List Event) (i : Nat)
    (hrun : update nodes inputs = .ok (ns, tr))
    (hfirst : (nodes.getD i blankNode).last_lap_id = -1) :
    (∀ t ms s, Event.lap i t ms s ∉ tr) ∧
    (∀ data,
      (inputs i).read (lapStatsReadSize (nodes.getD i blankNode).api_valid_flag
        (nodes.getD i blankNode).api_level) = some data →
      (nodes.getD i blankNode).frequency ≠ 0 →
      rssiInRange (frameRssi (nodes.getD i blankNode).api_level data) →
      (ns.getD i blankNode).last_lap_id = (data.getD 0 0 : Int)) := by
  unfold update at hrun
  split at hrun
  · exact Except.noConfusion hrun
  · rename_i ns1 crosses upds hscan
    dsimp only at hrun
    simp only [Except.ok.injEq, Prod.mk.injEq] at hrun
    obtain ⟨hns, htr⟩ := hrun
    obtain ⟨hlen, hbd, hpw, hspec⟩ :=
      updateScan_spec inputs nodes false 0 ns1 crosses upds hscan
    have hlast1 : ∀ k, (ns1.getD k blankNode).last_lap_id
        = (nodes.getD k blankNode).last_lap_id := by
      intro k
      by_cases hk : k < nodes.length
      · obtain ⟨bk, n', ck, lk, bk', hup, hget, -⟩ := hspec k hk
        rw [hget]
        exact (updateNode_preserves _ _ _ _ _ _ _ hup).1
      · rw [getD_blank_of_le _ _ (by omega), getD_blank_of_le _ _ (by omega)]
    have hpwd : ((dispatchItems ns1 upds).map Prod.fst).Pairwise (· ≠ ·) := by
      have hperm := (dispatchItems_perm ns1 upds).map Prod.fst
      have hne : (upds.map Prod.fst).Pairwise (· ≠ ·) :=
        hpw.imp Nat.ne_of_lt
      exact (List.Perm.pairwise_iff (fun h => Ne.symm h) hperm).mpr hne
    constructor
    · intro t ms s hmem
      rw [← htr, List.mem_append] at hmem
      rcases hmem with hmem | hmem
      · obtain ⟨x, -, hx⟩ := List.mem_map.mp hmem
        exact Event.noConfusion hx
      · rw [updateDispatch_eq] at hmem
        exact emitLaps_suppress (dispatchItems ns1 upds) ns1 i
          ((hlast1 i).trans hfirst) hpwd t ms s hmem
    · intro data hread hfreq hin
      have hilen : i < nodes.length := by
        by_contra hge
        rw [getD_blank_of_le _ _ (Nat.le_of_not_lt hge)] at hfreq
        exact hfreq rfl
      obtain ⟨bi, n', ci, li, bi', hup, hget, hmem⟩ := hspec i hilen
      simp only [Nat.zero_add] at hup hmem
      obtain ⟨t, hlt⟩ :=
        updateNode_lap_first bi _ _ n' ci li bi' data hup hread hfreq hin hfirst
      have hmem2 : (i, data.getD 0 0, t) ∈ upds := hmem _ _ hlt
      have hmem3 : (i, data.getD 0 0, t) ∈ dispatchItems ns1 upds :=
        ((dispatchItems_perm ns1 upds).mem_iff).mpr hmem2
      rw [← hns, updateDispatch_eq]
      exact emitLaps_assign (dispatchItems ns1 upds) ns1 i (data.getD 0 0) t
        hpwd hmem3 (by omega)

/-- C7 witness: with `lap_id = 3` on a first-observation node, no lap
event fires and `last_lap_id` ends at 3. -/
theorem update_first_observation_witness :
    (∀ t ms s, Event.lap 0 t ms s ∉ c7Run.2) ∧
    (c7Run.1.getD 0 blankNode).last_lap_id
      = ((frame18 3 0 50 60).getD 0 0 : Int) := by
  obtain ⟨h1, h2⟩ := update_first_observation [node18] (fun _ => c7Input)
    c7Run.1 c7Run.2 0 (by rfl) (by rfl)
  exact ⟨h1, h2 (frame18 3 0 50 60) (by rfl) (by decide) (by decide)⟩

/-- C8: within one cycle the trace is the crossing events followed by
the lap events, and the lap events are ascending in the emitting node's
`lap_ms_since_start`. -/
theorem update_crossings_before_sorted_laps (nodes : List Node)
    (inputs : Nat → PollInput) (ns : List Node) (tr : List Event)
    (hrun : update nodes inputs = .ok (ns, tr)) :
    ∃ cs ls, tr = cs ++ ls ∧
      (∀ e ∈ cs, ∃ j, e = Event.cross j) ∧
      (∀ e ∈ ls, ∃ j t ms, e = Event.lap j t ms LAP_SOURCE_REALTIME) ∧
      List.Sorted (· ≤ ·) (ls.map Event.msKey) := by
  unfold update at hrun
  split at hrun
  · exact Except.noConfusion hrun
  · rename_i ns1 crosses upds hscan
    dsimp only at hrun
    simp only [Except.ok.injEq, Prod.mk.injEq] at hrun
    obtain ⟨hns, htr⟩ := hrun
    refine ⟨crosses.map Event.cross, (updateDispatch ns1 upds).2, htr.symm,
      ?_, ?_, ?_⟩
    · intro e he
      obtain ⟨x, -, hx⟩ := List.mem_map.mp he
      exact ⟨x, hx.symm⟩
    · intro e he
      rw [updateDispatch_eq] at he
      obtain ⟨j, L, t, -, hx⟩ := emitLaps_events _ _ e he
      exact ⟨j, t, _, hx⟩
    · rw [updateDispatch_eq]
      have hsub := emitLaps_keys_sublist (dispatchItems ns1 upds) ns1
      have hsorted : ((dispatchItems ns1 upds).map (lapKey ns1)).Pairwise
          (· ≤ ·) :=
        List.Pairwise.map _ (fun a b h => h) (dispatchItems_sorted ns1 upds)
      exact List.Pairwise.sublist hsub hsorted

/-- C8 witness: the two-node cycle (crossing toggle on node 0,
`lap_ms_since_start` 20000 and 19800). -/
theorem update_crossings_before_sorted_laps_witness :
    ∃ cs ls, c8Run.2 = cs ++ ls ∧
      (∀ e ∈ cs, ∃ j, e = Event.cross j) ∧
      (∀ e ∈ ls, ∃ j t ms, e = Event.lap j t ms LAP_SOURCE_REALTIME) ∧
      List.Sorted (· ≤ ·) (ls.map Event.msKey) :=
  update_crossings_before_sorted_laps [c8NodeA, c8NodeB] c8Inputs
    c8Run.1 c8Run.2 (by rfl)

/-- C10: a poll cycle never modifies `lap_ms_since_start` on an
`api_level ≥ 18` node, and every lap event such a node emits carries its
pre-cycle `lap_ms_since_start` — frames of the current cycle cannot
influence its dispatch sort key. -/
theorem update_api18_lap_ms_frame_free (nodes : List Node)
    (inputs : Nat → PollInput) (ns : List Node) (tr : List Event) (i : Nat)
    (hrun : update nodes inputs = .ok (ns, tr))
    (hapi : (nodes.getD i blankNode).api_level ≥ 18) :
    (ns.getD i blankNode).lap_ms_since_start
      = (nodes.getD i blankNode).lap_ms_since_start ∧
    (∀ t ms s, Event.lap i t ms s ∈ tr →
      ms = (nodes.getD i blankNode).lap_ms_since_start) := by
  unfold update at hrun
  split at hrun
  · exact Except.noConfusion hrun
  · rename_i ns1 crosses upds hscan
    dsimp only at hrun
    simp only [Except.ok.injEq, Prod.mk.injEq] at hrun
    obtain ⟨hns, htr⟩ := hrun
    obtain ⟨hlen, hbd, hpw, hspec⟩ :=
      updateScan_spec inputs nodes false 0 ns1 crosses upds hscan
    have hms1 : (ns1.getD i blankNode).lap_ms_since_start
        = (nodes.getD i blankNode).lap_ms_since_start := by
      by_cases hk : i < nodes.length
      · obtain ⟨bk, n', ck, lk, bk', hup, hget, -⟩ := hspec i hk
        rw [hget]
        exact (updateNode_preserves _ _ _ _ _ _ _ hup).2 hapi
      · rw [getD_blank_of_le _ _ (by omega), getD_blank_of_le _ _ (by omega)]
    constructor
    · rw [← hns, updateDispatch_eq, emitLaps_lap_ms]
      exact hms1
    · intro t ms s hmem
      rw [← htr, List.mem_append] at hmem
      rcases hmem with hmem | hmem
      · obtain ⟨x, -, hx⟩ := List.mem_map.mp hmem
        exact Event.noConfusion hx
      · rw [updateDispatch_eq] at hmem
        obtain ⟨j, L, t', -, hx⟩ := emitLaps_events _ _ _ hmem
        obtain ⟨rfl, -, hms, -⟩ := Event.lap.inj hx
        rw [hms1] at hms
        exact hms

/-- C10 witness: the node's 777 ms key survives the cycle. -/
theorem update_api18_lap_ms_frame_free_witness :
    (c10Run.1.getD 0 blankNode).lap_ms_since_start
      = ([c10Node].getD 0 blankNode).lap_ms_since_start :=
  (update_api18_lap_ms_frame_free [c10Node] (fun _ => c10Input)
    c10Run.1 c10Run.2 0 (by rfl) (by decide)).1

end RH
